import Mathlib

/-!
Shallow embedding of the training/evaluation/persistence loop of the
`00_Quickstart.ipynb` notebook (a transcription of the PyTorch quickstart
tutorial).  Model parameters are rationals; the cross-entropy loss takes
values in the reals.  Stateful notebook code (the model object, the
optimizer's gradient buffers) is embedded as explicit state passing.
The automatic differentiation engine is not part of the repository and is
kept abstract as a function computing parameter gradients.
-/

namespace Quickstart

/-- A sample image: one channel of 28 × 28 numeric entries.
In the notebook a sample is a `[1, 28, 28]` tensor. -/
abbrev Sample : Type := List (List ℚ)

/-- A batch pairs each sample with its integer class label, as yielded by the
data loader (`for X, y in dataloader`, with `X`/`y` aligned componentwise). -/
abbrev Batch : Type := List (Sample × ℕ)

/-- One `nn.Linear` layer: a weight matrix (rows indexed by output feature)
and a bias vector. -/
structure LinearLayer where
  weight : List (List ℚ)
  bias : List ℚ
deriving DecidableEq, Repr

/-- Dot product of a weight row with an input vector. -/
def dot (w x : List ℚ) : ℚ :=
  (List.zipWith (· * ·) w x).sum

/-- Application of a linear layer: each output is a row dot the input
plus the corresponding bias. -/
def LinearLayer.apply (l : LinearLayer) (x : List ℚ) : List ℚ :=
  List.zipWith (fun w b => dot w x + b) l.weight l.bias

/-- The `nn.ReLU` activation, applied elementwise. -/
def relu (x : List ℚ) : List ℚ :=
  x.map (fun v => max v 0)

/-- The model of the notebook's `NeuralNetwork` module: the three linear
layers of `linear_relu_stack = nn.Sequential(Linear(28*28, 512), ReLU(),
Linear(512, 512), ReLU(), Linear(512, 10))`, at Sequential indices 0, 2, 4. -/
structure NeuralNetwork where
  lin0 : LinearLayer
  lin2 : LinearLayer
  lin4 : LinearLayer
deriving DecidableEq, Repr

/-- The `nn.Flatten` layer: flattens the 28 × 28 image into a vector of 784
entries (the batch dimension is handled by mapping over the batch). -/
def NeuralNetwork.flattenInput (x : Sample) : List ℚ :=
  x.flatten

/-- The notebook's `linear_relu_stack` applied to a flattened input. -/
def NeuralNetwork.linear_relu_stack (m : NeuralNetwork) (x : List ℚ) : List ℚ :=
  m.lin4.apply (relu (m.lin2.apply (relu (m.lin0.apply x))))

/-- The `forward` method: flatten, then the linear/ReLU stack; returns the
ten class logits. -/
def NeuralNetwork.forward (m : NeuralNetwork) (x : Sample) : List ℚ :=
  m.linear_relu_stack (NeuralNetwork.flattenInput x)

/-- Shape constraint of one `nn.Linear(nIn, nOut)` layer. -/
def LinearLayer.hasShape (l : LinearLayer) (nIn nOut : ℕ) : Prop :=
  l.weight.length = nOut ∧ (∀ r ∈ l.weight, r.length = nIn) ∧ l.bias.length = nOut

/-- A model has the topology built by `NeuralNetwork.__init__`:
`Linear(28*28, 512)`, `Linear(512, 512)`, `Linear(512, 10)`. -/
def NeuralNetwork.wellFormed (m : NeuralNetwork) : Prop :=
  m.lin0.hasShape (28 * 28) 512 ∧ m.lin2.hasShape 512 512 ∧ m.lin4.hasShape 512 10

instance (l : LinearLayer) (nIn nOut : ℕ) : Decidable (l.hasShape nIn nOut) := by
  unfold LinearLayer.hasShape; infer_instance

instance (m : NeuralNetwork) : Decidable m.wellFormed := by
  unfold NeuralNetwork.wellFormed; infer_instance

/-- Modelled from the spec: `torch.argmax` over a vector of scores returns
the index of the first maximal entry (the library operation is not part of
the repository's sources).  Auxiliary scan carrying the best value, the
index of the next entry and the best index so far. -/
def argmaxAux : List ℚ → ℚ → ℕ → ℕ → ℕ
  | [], _, _, best => best
  | v :: vs, bv, i, best =>
    if bv < v then argmaxAux vs v (i + 1) i else argmaxAux vs bv (i + 1) best

/-- Modelled from the spec: `torch.argmax` (see `argmaxAux`); on an empty
vector (which the library rejects) we return 0. -/
def argmax : List ℚ → ℕ
  | [] => 0
  | v :: vs => argmaxAux vs v 1 0

/-- A serialized parameter tensor: either a weight matrix or a bias vector. -/
inductive Tensor where
  | mat : List (List ℚ) → Tensor
  | vec : List ℚ → Tensor
deriving DecidableEq, Repr

/-- A state dict: the flat mapping from parameter name to tensor that
`model.state_dict()` produces and `torch.save` persists. -/
abbrev StateDict : Type := List (String × Tensor)

/-- Modelled from the spec: `model.state_dict()` — the mapping from layer
name to weight/bias tensors of the model, with PyTorch's parameter names
for the `linear_relu_stack` Sequential. -/
def NeuralNetwork.state_dict (m : NeuralNetwork) : StateDict :=
  [("linear_relu_stack.0.weight", Tensor.mat m.lin0.weight),
   ("linear_relu_stack.0.bias", Tensor.vec m.lin0.bias),
   ("linear_relu_stack.2.weight", Tensor.mat m.lin2.weight),
   ("linear_relu_stack.2.bias", Tensor.vec m.lin2.bias),
   ("linear_relu_stack.4.weight", Tensor.mat m.lin4.weight),
   ("linear_relu_stack.4.bias", Tensor.vec m.lin4.bias)]

/-- The parameter keys every `NeuralNetwork` state dict carries. -/
def stateDictKeys : List String :=
  ["linear_relu_stack.0.weight", "linear_relu_stack.0.bias",
   "linear_relu_stack.2.weight", "linear_relu_stack.2.bias",
   "linear_relu_stack.4.weight", "linear_relu_stack.4.bias"]

/-- Modelled from the spec: `model.load_state_dict(sd)` — restores the
parameter mapping into a model of the `NeuralNetwork` topology; a state
dict whose keys (or tensor kinds) do not match the model's parameters is a
hard error rather than a silently produced model. -/
def NeuralNetwork.load_state_dict (_target : NeuralNetwork) (sd : StateDict) :
    Except String NeuralNetwork :=
  match sd with
  | [(k0, Tensor.mat w0), (k1, Tensor.vec b0),
     (k2, Tensor.mat w2), (k3, Tensor.vec b2),
     (k4, Tensor.mat w4), (k5, Tensor.vec b4)] =>
    if [k0, k1, k2, k3, k4, k5] = stateDictKeys then
      Except.ok ⟨⟨w0, b0⟩, ⟨w2, b2⟩, ⟨w4, b4⟩⟩
    else Except.error "Unexpected or missing key(s) in state_dict"
  | _ => Except.error "Error(s) in loading state_dict"

/-- Modelled from the spec: `torch.save` writes the serialized mapping to a
flat file; the file contents are modelled as the mapping itself. -/
def torch_save (sd : StateDict) : StateDict := sd

/-- Modelled from the spec: `torch.load` reads back the mapping written by
`torch.save`. -/
def torch_load (file : StateDict) : StateDict := file

/-- Modelled from the spec: the `DataLoader` splits the dataset into
successive fixed-size chunks (no shuffling is applied in the notebook; the
default keeps a final short batch when the size does not divide evenly). -/
def toBatches (k : ℕ) : List (Sample × ℕ) → List Batch
  | [] => []
  | x :: xs => (x :: xs.take (k - 1)) :: toBatches k (xs.drop (k - 1))
termination_by l => l.length
decreasing_by
  simp only [List.length_drop, List.length_cons]
  omega

/-- The notebook's `batch_size = 64`. -/
def batch_size : ℕ := 64

/-- A `DataLoader`: wraps a dataset with a batch size. -/
structure DataLoader where
  dataset : List (Sample × ℕ)
  bsize : ℕ

/-- The iterable of batches a `DataLoader` yields. -/
def DataLoader.batches (dl : DataLoader) : List Batch :=
  toBatches dl.bsize dl.dataset

/-- The notebook's `train_dataloader = DataLoader(training_data, batch_size)`. -/
def train_dataloader (training_data : List (Sample × ℕ)) : DataLoader :=
  ⟨training_data, batch_size⟩

/-- The notebook's `test_dataloader = DataLoader(test_data, batch_size)`. -/
def test_dataloader (test_data : List (Sample × ℕ)) : DataLoader :=
  ⟨test_data, batch_size⟩

/-- Modelled from the spec: the reference training set (FashionMNIST)
holds 60000 samples. -/
def trainingDatasetSize : ℕ := 60000

/-- Modelled from the spec: `nn.CrossEntropyLoss` on one sample — the
negative log of the softmax probability of the true class, written as
log-sum-exp of the logits minus the logit of the true class. -/
noncomputable def crossEntropy (pred : List ℚ) (y : ℕ) : ℝ :=
  Real.log ((pred.map (fun v : ℚ => Real.exp (v : ℝ))).sum) - ((pred.getD y 0 : ℚ) : ℝ)

/-- Modelled from the spec: `nn.CrossEntropyLoss` on a batch of logits and
labels, with the default mean reduction. -/
noncomputable def crossEntropyLoss (preds : List (List ℚ)) (ys : List ℕ) : ℝ :=
  (List.zipWith crossEntropy preds ys).sum / (preds.length : ℝ)

/-- The mutable state the notebook threads through training: the model's
parameters, the accumulated gradients held by the parameters (none after
`optimizer.zero_grad()`), and the train/eval mode flag toggled by
`model.train()` / `model.eval()`. -/
structure TrainState where
  net : NeuralNetwork
  grads : Option NeuralNetwork
  training : Bool
deriving DecidableEq

/-- Elementwise sum of two weight matrices. -/
def addMat (a b : List (List ℚ)) : List (List ℚ) :=
  List.zipWith (List.zipWith (· + ·)) a b

/-- Elementwise sum of the parameters of two layers. -/
def addLayer (a b : LinearLayer) : LinearLayer :=
  ⟨addMat a.weight b.weight, List.zipWith (· + ·) a.bias b.bias⟩

/-- Elementwise sum of two parameter collections (gradient accumulation). -/
def addNet (a b : NeuralNetwork) : NeuralNetwork :=
  ⟨addLayer a.lin0 b.lin0, addLayer a.lin2 b.lin2, addLayer a.lin4 b.lin4⟩

/-- One SGD update of a weight matrix: `p - lr * g` elementwise. -/
def sgdMat (lr : ℚ) (p g : List (List ℚ)) : List (List ℚ) :=
  List.zipWith (List.zipWith (fun pv gv => pv - lr * gv)) p g

/-- One SGD update of a layer's parameters. -/
def sgdLayer (lr : ℚ) (p g : LinearLayer) : LinearLayer :=
  ⟨sgdMat lr p.weight g.weight, List.zipWith (fun pv gv => pv - lr * gv) p.bias g.bias⟩

/-- Modelled from the spec: one step of `torch.optim.SGD` adjusts every
parameter by `lr` times its gradient. -/
def sgdUpdate (lr : ℚ) (p g : NeuralNetwork) : NeuralNetwork :=
  ⟨sgdLayer lr p.lin0 g.lin0, sgdLayer lr p.lin2 g.lin2, sgdLayer lr p.lin4 g.lin4⟩

/-- The notebook's learning rate `lr=1e-3`. -/
def learning_rate : ℚ := 1 / 1000

/-- The gradient engine: `loss.backward()` computes the gradient of the
current batch's loss with respect to the parameters.  Autograd is owned by
the external library, so it is kept abstract as a function from the current
parameters and batch to a parameter-shaped gradient. -/
def GradEngine : Type := NeuralNetwork → Batch → NeuralNetwork

/-- The effect of `loss.backward()` on the state: the gradient of the
current batch's loss is accumulated into the parameters' gradient slots. -/
def backward (G : GradEngine) (st : TrainState) (b : Batch) : TrainState :=
  { st with grads := some (match st.grads with
      | none => G st.net b
      | some h => addNet h (G st.net b)) }

/-- The effect of `optimizer.step()`: apply one SGD update using the
accumulated gradients (parameters without gradients are left alone). -/
def optimizerStep (lr : ℚ) (st : TrainState) : TrainState :=
  { st with net := match st.grads with
      | none => st.net
      | some g => sgdUpdate lr st.net g }

/-- The effect of `optimizer.zero_grad()`: reset every gradient slot. -/
def zero_grad (st : TrainState) : TrainState :=
  { st with grads := none }

/-- The body of the `train` loop for one enumerated batch: compute the
predictions and the loss, backpropagate, step the optimizer, zero the
gradients, and append a progress line `(loss, (batch + 1) * len(X))` when
the batch index is a multiple of 100. -/
noncomputable def trainBatchStep (G : GradEngine) (lr : ℚ)
    (acc : TrainState × List (ℝ × ℕ)) (p : ℕ × Batch) : TrainState × List (ℝ × ℕ) :=
  let batch := p.1
  let X := p.2.map Prod.fst
  let y := p.2.map Prod.snd
  let pred := X.map acc.1.net.forward
  let loss := crossEntropyLoss pred y
  let st1 := backward G acc.1 p.2
  let st2 := optimizerStep lr st1
  let st3 := zero_grad st2
  let log := if batch % 100 = 0 then acc.2 ++ [(loss, (batch + 1) * X.length)] else acc.2
  (st3, log)

/-- The notebook's `train(dataloader, model, loss_fn, optimizer)`: switch to
training mode, then for each enumerated batch run `trainBatchStep`.  The
returned list is the sequence of progress observations printed. -/
noncomputable def train (G : GradEngine) (lr : ℚ) (dl : DataLoader)
    (st : TrainState) : TrainState × List (ℝ × ℕ) :=
  let st0 := { st with training := true }
  dl.batches.enum.foldl (trainBatchStep G lr) (st0, [])

/-- The notebook's `test(dataloader, model, loss_fn)`: switch to eval mode,
accumulate the total loss and the count of correct top-1 predictions over
all batches under `no_grad`, and report the batch-averaged loss together
with the fraction correct.  Returns the updated state (the parameters are
untouched) and the `(avg_loss, accuracy)` pair printed. -/
noncomputable def test (dl : DataLoader) (st : TrainState) :
    TrainState × ℝ × ℚ :=
  let size := dl.dataset.length
  let num_batches := dl.batches.length
  let st0 := { st with training := false }
  let acc := dl.batches.foldl (fun acc b =>
    let pred := b.map (fun p => st0.net.forward p.1)
    let y := b.map Prod.snd
    (acc.1 + crossEntropyLoss pred y,
     acc.2 + (List.zipWith (fun pr yy => if argmax pr = yy then (1 : ℚ) else 0) pred y).sum))
    ((0 : ℝ), (0 : ℚ))
  (st0, acc.1 / (num_batches : ℝ), acc.2 / (size : ℚ))

/-- The notebook's `epochs = 5`. -/
def epochs : ℕ := 5

/-- The notebook's epochs loop: `for t in range(epochs): train(...); test(...)`,
collecting the `(avg_loss, accuracy)` pair reported after each epoch. -/
noncomputable def runEpochs (G : GradEngine) (lr : ℚ)
    (train_dl test_dl : DataLoader) : ℕ → TrainState → TrainState × List (ℝ × ℚ)
  | 0, st => (st, [])
  | n + 1, st =>
    let st1 := (train G lr train_dl st).1
    let r := test test_dl st1
    let rest := runEpochs G lr train_dl test_dl n r.1
    (rest.1, r.2 :: rest.2)

/-- The class names of the prediction cell. -/
def classes : List String :=
  ["T-shirt/top", "Trouser", "Pullover", "Dress", "Coat",
   "Sandal", "Shirt", "Sneaker", "Bag", "Ankle boot"]

/-- The prediction cell: run the model in evaluation mode under `no_grad`
on a single sample and take the highest-scoring class index
(`pred[0].argmax(0)`). -/
def NeuralNetwork.predict (m : NeuralNetwork) (x : Sample) : ℕ :=
  argmax (m.forward x)

/-- The reference per-batch progress trace of `train`, written out as the
recursion the loop performs: starting at batch index `i` with parameters
`n`, emit `(loss, (i + 1) * batch length)` exactly when `i` is a multiple
of 100, then continue on the SGD-updated parameters. -/
noncomputable def progressLogFrom (G : GradEngine) (lr : ℚ) :
    ℕ → NeuralNetwork → List Batch → List (ℝ × ℕ)
  | _, _, [] => []
  | i, n, b :: bs =>
    (if i % 100 = 0 then
      [(crossEntropyLoss ((b.map Prod.fst).map n.forward) (b.map Prod.snd),
        (i + 1) * b.length)]
     else [])
      ++ progressLogFrom G lr (i + 1) (sgdUpdate lr n (G n b)) bs

/-- A concrete all-zero 28 × 28 sample, used to instantiate theorems. -/
def sample0 : Sample := List.replicate 28 (List.replicate 28 0)

/-- A concrete labelled sample. -/
def p0 : Sample × ℕ := (sample0, 0)

/-- A concrete (degenerate) model with empty layers, used to instantiate
theorems whose statements do not constrain the topology. -/
def tinyModel : NeuralNetwork := ⟨⟨[], []⟩, ⟨[], []⟩, ⟨[], []⟩⟩

/-- A concrete model of the reference topology (all weights zero). -/
def witModel : NeuralNetwork :=
  ⟨⟨List.replicate 512 (List.replicate (28 * 28) 0), List.replicate 512 0⟩,
   ⟨List.replicate 512 (List.replicate 512 0), List.replicate 512 0⟩,
   ⟨List.replicate 10 (List.replicate 512 0), List.replicate 10 0⟩⟩

/-- A concrete gradient engine (identically the parameters themselves),
used to instantiate theorems that hold for every engine. -/
def gradW : GradEngine := fun n _ => n

theorem toBatches_nil (k : ℕ) : toBatches k [] = [] := by
  simp [toBatches]

theorem toBatches_cons (k : ℕ) (x : Sample × ℕ) (xs : List (Sample × ℕ)) :
    toBatches k (x :: xs) = (x :: xs.take (k - 1)) :: toBatches k (xs.drop (k - 1)) := by
  rw [toBatches]

theorem toBatches_eq_nil_iff (k : ℕ) (l : List (Sample × ℕ)) :
    toBatches k l = [] ↔ l = [] := by
  cases l with
  | nil => simp [toBatches_nil]
  | cons x xs => simp [toBatches_cons]

theorem flatten_toBatches (k : ℕ) (l : List (Sample × ℕ)) :
    (toBatches k l).flatten = l := by
  induction l using toBatches.induct k with
  | case1 => simp [toBatches_nil]
  | case2 x xs ih =>
    rw [toBatches_cons]
    simp [ih]

theorem sum_lengths_toBatches (k : ℕ) (l : List (Sample × ℕ)) :
    ((toBatches k l).map List.length).sum = l.length := by
  rw [← List.length_flatten, flatten_toBatches]

theorem mem_of_mem_toBatches (k : ℕ) (l : List (Sample × ℕ)) (b : Batch)
    (hb : b ∈ toBatches k l) (x : Sample × ℕ) (hx : x ∈ b) : x ∈ l := by
  rw [← flatten_toBatches k l]
  exact List.mem_flatten.mpr ⟨b, hb, hx⟩

theorem length_mem_toBatches (k : ℕ) (hk : 0 < k) (l : List (Sample × ℕ))
    (b : Batch) (hb : b ∈ toBatches k l) : 0 < b.length ∧ b.length ≤ k := by
  induction l using toBatches.induct k with
  | case1 => simp [toBatches_nil] at hb
  | case2 x xs ih =>
    rw [toBatches_cons] at hb
    rcases List.mem_cons.mp hb with h | h
    · subst h
      simp only [List.length_cons, List.length_take]
      omega
    · exact ih h

theorem toBatches_getD_length (k : ℕ) (hk : 0 < k) (l : List (Sample × ℕ)) :
    ∀ i : ℕ, i + 1 < (toBatches k l).length →
      ((toBatches k l).getD i []).length = k := by
  induction l using toBatches.induct k with
  | case1 => intro i hi; simp [toBatches_nil] at hi
  | case2 x xs ih =>
    intro i hi
    rw [toBatches_cons] at hi ⊢
    match i with
    | 0 =>
      simp only [List.length_cons] at hi
      have hne : xs.drop (k - 1) ≠ [] := by
        intro h
        rw [(toBatches_eq_nil_iff k _).mpr h] at hi
        simp at hi
      have hlen : k - 1 ≤ xs.length := by
        by_contra hcon
        exact hne (List.drop_eq_nil_of_le (by omega))
      simp only [List.getD_cons_zero, List.length_cons, List.length_take]
      omega
    | i + 1 =>
      simp only [List.getD_cons_succ]
      exact ih i (by simpa using hi)

theorem toBatches_replicate_add (k m : ℕ) (hk : 0 < k) (x : Sample × ℕ) :
    toBatches k (List.replicate (m + k) x)
      = List.replicate k x :: toBatches k (List.replicate m x) := by
  obtain ⟨kk, rfl⟩ : ∃ kk, k = kk + 1 := ⟨k - 1, by omega⟩
  have h1 : m + (kk + 1) = (m + kk) + 1 := by omega
  rw [h1, List.replicate_succ, toBatches_cons]
  have h2 : (kk + 1) - 1 = kk := by omega
  rw [h2, List.take_replicate, List.drop_replicate]
  have h3 : min kk (m + kk) = kk := by omega
  have h4 : m + kk - kk = m := by omega
  rw [h3, h4, ← List.replicate_succ]

theorem toBatches_replicate_of_le (k n : ℕ) (hn : 0 < n) (hnk : n ≤ k)
    (x : Sample × ℕ) : toBatches k (List.replicate n x) = [List.replicate n x] := by
  obtain ⟨nn, rfl⟩ : ∃ nn, n = nn + 1 := ⟨n - 1, by omega⟩
  rw [List.replicate_succ, toBatches_cons, List.take_replicate, List.drop_replicate]
  have h1 : min (k - 1) nn = nn := by omega
  have h2 : nn - (k - 1) = 0 := by omega
  rw [h1, h2, List.replicate_zero, toBatches_nil, ← List.replicate_succ]

theorem replicate_mem_toBatches (k r : ℕ) (hk : 0 < k) (hr : 0 < r) (hrk : r < k)
    (q : ℕ) (x : Sample × ℕ) :
    List.replicate r x ∈ toBatches k (List.replicate (q * k + r) x) := by
  induction q with
  | zero =>
    rw [Nat.zero_mul, Nat.zero_add, toBatches_replicate_of_le k r hr (le_of_lt hrk)]
    exact List.mem_singleton.mpr rfl
  | succ q ih =>
    have h1 : (q + 1) * k + r = (q * k + r) + k := by ring
    rw [h1, toBatches_replicate_add k _ hk]
    exact List.mem_cons_of_mem _ ih

theorem argmaxAux_lt (n : ℕ) :
    ∀ (vs : List ℚ) (bv : ℚ) (i best : ℕ), best < n → i + vs.length ≤ n →
      argmaxAux vs bv i best < n := by
  intro vs
  induction vs with
  | nil =>
    intro bv i best h1 _
    simpa [argmaxAux] using h1
  | cons v vs ih =>
    intro bv i best h1 h2
    simp only [List.length_cons] at h2
    rw [argmaxAux]
    split
    · exact ih v (i + 1) i (by omega) (by omega)
    · exact ih bv (i + 1) best h1 (by omega)

theorem argmax_lt_length (l : List ℚ) (hl : l ≠ []) : argmax l < l.length := by
  cases l with
  | nil => exact absurd rfl hl
  | cons v vs =>
    rw [argmax]
    exact argmaxAux_lt (v :: vs).length vs v 1 0 (by simp) (by simp [Nat.add_comm])

theorem LinearLayer.length_apply (l : LinearLayer) (x : List ℚ) :
    (l.apply x).length = min l.weight.length l.bias.length := by
  simp [LinearLayer.apply]

theorem NeuralNetwork.length_forward (m : NeuralNetwork) (x : Sample)
    (h : m.lin4.hasShape 512 10) : (m.forward x).length = 10 := by
  obtain ⟨hw, -, hb⟩ := h
  simp [NeuralNetwork.forward, NeuralNetwork.linear_relu_stack,
    LinearLayer.length_apply, hw, hb]

theorem crossEntropy_nonneg (pred : List ℚ) (y : ℕ) (hy : y < pred.length) :
    0 ≤ crossEntropy pred y := by
  rw [crossEntropy, sub_nonneg]
  have hmem : Real.exp ((pred.getD y 0 : ℚ) : ℝ)
      ∈ pred.map (fun v : ℚ => Real.exp (v : ℝ)) := by
    have hg : pred.getD y 0 ∈ pred := by
      rw [List.getD_eq_getElem pred 0 hy]
      exact List.getElem_mem hy
    exact List.mem_map_of_mem (fun v : ℚ => Real.exp (v : ℝ)) hg
  have hpos : ∀ z ∈ pred.map (fun v : ℚ => Real.exp (v : ℝ)), 0 ≤ z := by
    intro z hz
    obtain ⟨v, -, rfl⟩ := List.mem_map.mp hz
    exact (Real.exp_pos _).le
  have hle := List.single_le_sum hpos _ hmem
  have hS : 0 < (pred.map (fun v : ℚ => Real.exp (v : ℝ))).sum :=
    lt_of_lt_of_le (Real.exp_pos _) hle
  rw [Real.le_log_iff_exp_le hS]
  exact hle

theorem zipWith_crossEntropy_nonneg :
    ∀ (preds : List (List ℚ)) (ys : List ℕ),
      (∀ p ∈ preds, p.length = 10) → (∀ y ∈ ys, y < 10) →
      0 ≤ (List.zipWith crossEntropy preds ys).sum := by
  intro preds
  induction preds with
  | nil => intro ys _ _; simp
  | cons p ps ih =>
    intro ys hp hy
    cases ys with
    | nil => simp
    | cons y ys =>
      simp only [List.zipWith_cons_cons, List.sum_cons]
      have h1 : 0 ≤ crossEntropy p y := by
        refine crossEntropy_nonneg p y ?_
        rw [hp p (by simp)]
        exact hy y (by simp)
      have h2 := ih ys (fun q hq => hp q (by simp [hq])) (fun z hz => hy z (by simp [hz]))
      linarith

theorem crossEntropyLoss_nonneg (preds : List (List ℚ)) (ys : List ℕ)
    (hp : ∀ p ∈ preds, p.length = 10) (hy : ∀ y ∈ ys, y < 10) :
    0 ≤ crossEntropyLoss preds ys := by
  rw [crossEntropyLoss]
  exact div_nonneg (zipWith_crossEntropy_nonneg preds ys hp hy) (Nat.cast_nonneg _)

theorem indicator_sum_bounds (b : Batch) (f : Sample × ℕ → List ℚ) :
    0 ≤ (List.zipWith (fun pr yy => if argmax pr = yy then (1 : ℚ) else 0)
          (b.map f) (b.map Prod.snd)).sum ∧
    (List.zipWith (fun pr yy => if argmax pr = yy then (1 : ℚ) else 0)
          (b.map f) (b.map Prod.snd)).sum ≤ (b.length : ℚ) := by
  induction b with
  | nil => simp
  | cons x xs ih =>
    simp only [List.map_cons, List.zipWith_cons_cons, List.sum_cons, List.length_cons]
    have h0 : (0 : ℚ) ≤ if argmax (f x) = x.2 then (1 : ℚ) else 0 := by
      split <;> norm_num
    have h1 : (if argmax (f x) = x.2 then (1 : ℚ) else 0) ≤ 1 := by
      split <;> norm_num
    constructor
    · linarith [ih.1]
    · push_cast
      linarith [ih.2]

theorem foldl_pair_sum (f : Batch → ℝ) (g : Batch → ℚ) :
    ∀ (bs : List Batch) (a : ℝ) (c : ℚ),
      bs.foldl (fun acc b => (acc.1 + f b, acc.2 + g b)) (a, c)
        = (a + (bs.map f).sum, c + (bs.map g).sum) := by
  intro bs
  induction bs with
  | nil => intro a c; simp
  | cons b bs ih =>
    intro a c
    simp only [List.foldl_cons, List.map_cons, List.sum_cons]
    rw [ih]
    simp [add_assoc]

theorem state_dict_inj (m1 m2 : NeuralNetwork)
    (h : m1.state_dict = m2.state_dict) : m1 = m2 := by
  cases m1 with
  | mk l0 l2 l4 =>
    cases m2 with
    | mk r0 r2 r4 =>
      cases l0; cases l2; cases l4; cases r0; cases r2; cases r4
      simp only [NeuralNetwork.state_dict, List.cons.injEq, Prod.mk.injEq,
        Tensor.mat.injEq, Tensor.vec.injEq, and_true, true_and] at h
      obtain ⟨h1, h2, h3, h4, h5, h6, -⟩ := h
      simp_all

theorem train_loop_spec (G : GradEngine) (lr : ℚ) :
    ∀ (bs : List Batch) (i : ℕ) (n : NeuralNetwork) (fl : Bool) (log : List (ℝ × ℕ)),
      (List.enumFrom i bs).foldl (trainBatchStep G lr) (⟨n, none, fl⟩, log)
        = (⟨bs.foldl (fun m b => sgdUpdate lr m (G m b)) n, none, fl⟩,
           log ++ progressLogFrom G lr i n bs) := by
  intro bs
  induction bs with
  | nil => intro i n fl log; simp [progressLogFrom]
  | cons b bs ih =>
    intro i n fl log
    have hstep : trainBatchStep G lr (⟨n, none, fl⟩, log) (i, b)
        = (⟨sgdUpdate lr n (G n b), none, fl⟩,
           log ++ (if i % 100 = 0 then
             [(crossEntropyLoss ((b.map Prod.fst).map n.forward) (b.map Prod.snd),
               (i + 1) * b.length)] else [])) := by
      simp only [trainBatchStep, backward, optimizerStep, zero_grad, List.length_map]
      split <;> simp
    show ((i, b) :: List.enumFrom (i + 1) bs).foldl (trainBatchStep G lr)
        (⟨n, none, fl⟩, log) = _
    simp only [List.foldl_cons]
    rw [hstep, ih (i + 1) (sgdUpdate lr n (G n b)) fl _]
    simp only [progressLogFrom, List.foldl_cons, List.append_assoc]

theorem replicate_hasShape (nIn nOut : ℕ) :
    LinearLayer.hasShape
      ⟨List.replicate nOut (List.replicate nIn 0), List.replicate nOut 0⟩ nIn nOut := by
  refine ⟨by simp, ?_, by simp⟩
  intro r hr
  rw [List.eq_of_mem_replicate hr]
  simp

theorem witModel_wellFormed : witModel.wellFormed :=
  ⟨replicate_hasShape (28 * 28) 512, replicate_hasShape 512 512, replicate_hasShape 512 10⟩

theorem DataLoader.sum_lengths_batches (dl : DataLoader) :
    ((dl.batches.map List.length).sum) = dl.dataset.length :=
  sum_lengths_toBatches dl.bsize dl.dataset

theorem test_eq (dl : DataLoader) (st : TrainState) :
    test dl st
      = ({ st with training := false },
         (dl.batches.map (fun b =>
            crossEntropyLoss (b.map (fun p => st.net.forward p.1)) (b.map Prod.snd))).sum
           / (dl.batches.length : ℝ),
         (dl.batches.map (fun b =>
            (List.zipWith (fun pr yy => if argmax pr = yy then (1 : ℚ) else 0)
              (b.map (fun p => st.net.forward p.1)) (b.map Prod.snd)).sum)).sum
           / (dl.dataset.length : ℚ)) := by
  obtain ⟨n, g, fl⟩ := st
  simp only [test]
  rw [foldl_pair_sum]
  simp

/-- C1: for every model state and every sequence of batches, running the
notebook's `test` function (the spec's `evaluate`) leaves every value in
Model Parameters unchanged: the parameter mapping after the call equals
the mapping before the call. -/
theorem evaluate_preserves_parameters (dl : DataLoader) (st : TrainState) :
    ((test dl st).1).net.state_dict = st.net.state_dict := by
  obtain ⟨n, g, fl⟩ := st
  rfl

/-- C2: saving a trained model's parameter mapping with `torch.save` and
loading it back with `load_state_dict` into a freshly constructed model of
identical topology yields a model whose predictions on any sample are
identical to the predictions of the original model. -/
theorem save_load_round_trip (m m0 : NeuralNetwork) :
    ∃ m1 : NeuralNetwork,
      m0.load_state_dict (torch_load (torch_save m.state_dict)) = Except.ok m1
        ∧ ∀ x : Sample, m1.forward x = m.forward x := by
  refine ⟨m, ?_, fun x => rfl⟩
  rfl

/-- C3: starting from zeroed gradients, `train` processes the batches in
order and for each batch performs exactly the loop body: predictions and
loss are computed, the gradient of the current batch's loss is computed by
`loss.backward()`, one optimizer step updates the parameters using exactly
that gradient, and the gradients are reset before the next batch — so the
final parameters are the in-order fold of one SGD step per batch and the
final gradient slots are empty. -/
theorem train_batch_sequence (G : GradEngine) (lr : ℚ) (dl : DataLoader)
    (st : TrainState) (h : st.grads = none) :
    (train G lr dl st).1
      = ⟨dl.batches.foldl (fun m b => sgdUpdate lr m (G m b)) st.net, none, true⟩ := by
  obtain ⟨n, g, fl⟩ := st
  have hg : g = none := h
  subst hg
  show ((List.enumFrom 0 dl.batches).foldl (trainBatchStep G lr)
      (⟨n, none, true⟩, [])).1 = _
  rw [train_loop_spec]

/-- Witness for C3 at a concrete gradient engine, loader and state. -/
theorem train_batch_sequence_witness :
    (train gradW learning_rate (train_dataloader [p0, p0]) ⟨tinyModel, none, false⟩).1
      = ⟨(train_dataloader [p0, p0]).batches.foldl
          (fun m b => sgdUpdate learning_rate m (gradW m b)) tinyModel, none, true⟩ :=
  train_batch_sequence gradW learning_rate (train_dataloader [p0, p0])
    ⟨tinyModel, none, false⟩ rfl

/-- C4: the epochs loop performs exactly `n` iterations, each one call to
`train` followed by one call to `test`, collecting one evaluation report
per epoch; the final state is the n-fold iterate of the epoch step (no
further update occurs after the n-th), and the reference run uses
`epochs = 5`. -/
theorem runEpochs_iterates_train_test (G : GradEngine) (lr : ℚ)
    (train_dl test_dl : DataLoader) (n : ℕ) (st : TrainState) :
    (runEpochs G lr train_dl test_dl n st).1
        = (fun s => (test test_dl (train G lr train_dl s).1).1)^[n] st
      ∧ (runEpochs G lr train_dl test_dl n st).2.length = n ∧ epochs = 5 := by
  induction n generalizing st with
  | zero => exact ⟨rfl, rfl, rfl⟩
  | succ n ih =>
    obtain ⟨ih1, ih2, -⟩ := ih ((test test_dl (train G lr train_dl st).1).1)
    refine ⟨?_, ?_, rfl⟩
    · rw [Function.iterate_succ_apply]
      exact ih1
    · show ((test test_dl (train G lr train_dl st).1).2
          :: (runEpochs G lr train_dl test_dl n
                ((test test_dl (train G lr train_dl st).1).1)).2).length = n + 1
      rw [List.length_cons, ih2]

/-- C5: `load_state_dict` succeeds only when every parameter key of the
blob matches the model's parameter keys; a blob whose keys do not match is
a hard error rather than a silently produced model. -/
theorem load_state_dict_key_mismatch (m : NeuralNetwork) (sd : StateDict)
    (h : ∃ m1, m.load_state_dict sd = Except.ok m1) :
    sd.map Prod.fst = stateDictKeys := by
  obtain ⟨m1, h⟩ := h
  unfold NeuralNetwork.load_state_dict at h
  split at h
  · split_ifs at h with hc
    simpa using hc
  · exact Except.noConfusion h

/-- Witness for C5 at a concrete model and blob on which loading succeeds. -/
theorem load_state_dict_key_mismatch_witness :
    (tinyModel.state_dict).map Prod.fst = stateDictKeys :=
  load_state_dict_key_mismatch tinyModel tinyModel.state_dict ⟨tinyModel, rfl⟩

/-- C6: on every single input sample, the prediction cell's
evaluation-mode forward pass followed by `argmax` over the class scores
returns an integer class index within the valid label range, at most 9. -/
theorem predict_class_index_le_nine (m : NeuralNetwork) (x : Sample)
    (h : m.wellFormed) : m.predict x ≤ 9 := by
  have h4 : m.lin4.hasShape 512 10 := h.2.2
  have hlen := m.length_forward x h4
  have hne : m.forward x ≠ [] := by
    intro hc
    rw [hc] at hlen
    simp at hlen
  have harg := argmax_lt_length (m.forward x) hne
  rw [hlen] at harg
  show argmax (m.forward x) ≤ 9
  omega

/-- Witness for C6 at a concrete well-formed model and sample. -/
theorem predict_class_index_le_nine_witness :
    witModel.wellFormed ∧ witModel.predict sample0 ≤ 9 :=
  ⟨witModel_wellFormed, predict_class_index_le_nine witModel sample0 witModel_wellFormed⟩

/-- C7 counterexample: with the reference training set of 60000 samples
and `batch_size = 64`, the training data loader yields a batch of 32
samples, so not every batch contains exactly 64 samples. -/
theorem batch_of_32_samples_exists :
    List.replicate 32 p0 ∈ (train_dataloader (List.replicate trainingDatasetSize p0)).batches
      ∧ (List.replicate 32 p0).length ≠ batch_size := by
  constructor
  · show List.replicate 32 p0 ∈ toBatches batch_size (List.replicate trainingDatasetSize p0)
    have h : trainingDatasetSize = 937 * batch_size + 32 := by
      norm_num [trainingDatasetSize, batch_size]
    rw [h]
    exact replicate_mem_toBatches batch_size 32 (by norm_num [batch_size])
      (by norm_num) (by norm_num [batch_size]) 937 p0
  · simp [batch_size]

/-- C7 amended: every batch the data loader yields is nonempty and holds
at most `batch_size` (64) samples, and every batch other than the final
one holds exactly 64. -/
theorem batches_size_bounds (ds : List (Sample × ℕ)) (b : Batch)
    (hb : b ∈ (train_dataloader ds).batches) (i : ℕ)
    (hi : i + 1 < (train_dataloader ds).batches.length) :
    (0 < b.length ∧ b.length ≤ batch_size)
      ∧ ((train_dataloader ds).batches.getD i []).length = batch_size := by
  refine ⟨length_mem_toBatches batch_size (by norm_num [batch_size]) ds b hb, ?_⟩
  exact toBatches_getD_length batch_size (by norm_num [batch_size]) ds i hi

/-- Witness for the amended C7 at a concrete 65-sample dataset. -/
theorem batches_size_bounds_witness :
    ((0 < (List.replicate 64 p0).length ∧ (List.replicate 64 p0).length ≤ batch_size)
      ∧ (((train_dataloader (List.replicate 65 p0)).batches.getD 0 []).length
          = batch_size)) := by
  have hbs : (train_dataloader (List.replicate 65 p0)).batches
      = [List.replicate 64 p0, List.replicate 1 p0] := by
    show toBatches batch_size (List.replicate 65 p0) = _
    have h65 : (65 : ℕ) = 1 + batch_size := by norm_num [batch_size]
    have hb : batch_size = 64 := rfl
    rw [h65, toBatches_replicate_add batch_size 1 (by norm_num [batch_size]),
      toBatches_replicate_of_le batch_size 1 (by norm_num) (by norm_num [batch_size]), hb]
  exact batches_size_bounds (List.replicate 65 p0) (List.replicate 64 p0)
    (by rw [hbs]; simp) 0 (by rw [hbs]; norm_num)

/-- C8: starting from zeroed gradients, the progress log `train` emits is
exactly the reference trace: one observation `(current loss, progress
count)` for each batch whose index is a multiple of 100, and no other
per-batch output. -/
theorem train_progress_log (G : GradEngine) (lr : ℚ) (dl : DataLoader)
    (st : TrainState) (h : st.grads = none) :
    (train G lr dl st).2 = progressLogFrom G lr 0 st.net dl.batches := by
  obtain ⟨n, g, fl⟩ := st
  have hg : g = none := h
  subst hg
  show ((List.enumFrom 0 dl.batches).foldl (trainBatchStep G lr)
      (⟨n, none, true⟩, [])).2 = progressLogFrom G lr 0 n dl.batches
  rw [train_loop_spec]
  simp

/-- Witness for C8 at a concrete gradient engine, loader and state. -/
theorem train_progress_log_witness :
    (train gradW learning_rate (train_dataloader [p0, p0]) ⟨tinyModel, none, false⟩).2
      = progressLogFrom gradW learning_rate 0 tinyModel
          (train_dataloader [p0, p0]).batches :=
  train_progress_log gradW learning_rate (train_dataloader [p0, p0])
    ⟨tinyModel, none, false⟩ rfl

/-- C9: for a well-formed model and labels in range, the average loss the
`test` function reports is non-negative and the accuracy it reports lies
in the closed interval from 0 to 1. -/
theorem test_metrics_bounds (dl : DataLoader) (st : TrainState)
    (hm : st.net.wellFormed) (hy : ∀ p ∈ dl.dataset, p.2 < 10) :
    0 ≤ (test dl st).2.1 ∧ 0 ≤ (test dl st).2.2 ∧ (test dl st).2.2 ≤ 1 := by
  obtain ⟨n, g, fl⟩ := st
  have h4 : n.lin4.hasShape 512 10 := hm.2.2
  rw [test_eq]
  refine ⟨?_, ?_, ?_⟩
  · apply div_nonneg _ (Nat.cast_nonneg _)
    apply List.sum_nonneg
    intro z hz
    obtain ⟨b, hb, rfl⟩ := List.mem_map.mp hz
    apply crossEntropyLoss_nonneg
    · intro p hp
      obtain ⟨q, hq, rfl⟩ := List.mem_map.mp hp
      exact NeuralNetwork.length_forward n q.1 h4
    · intro y hyy
      obtain ⟨q, hq, rfl⟩ := List.mem_map.mp hyy
      exact hy q (mem_of_mem_toBatches dl.bsize dl.dataset b hb q hq)
  · apply div_nonneg _ (Nat.cast_nonneg _)
    apply List.sum_nonneg
    intro z hz
    obtain ⟨b, hb, rfl⟩ := List.mem_map.mp hz
    exact (indicator_sum_bounds b _).1
  · apply div_le_one_of_le₀ _ (Nat.cast_nonneg _)
    have hle : (dl.batches.map (fun b =>
          (List.zipWith (fun pr yy => if argmax pr = yy then (1 : ℚ) else 0)
            (b.map (fun p => n.forward p.1)) (b.map Prod.snd)).sum)).sum
        ≤ (dl.batches.map (fun b : Batch => (b.length : ℚ))).sum := by
      apply List.sum_le_sum
      intro b hb
      exact (indicator_sum_bounds b _).2
    have hsz : (dl.batches.map (fun b : Batch => (b.length : ℚ))).sum
        = (dl.dataset.length : ℚ) := by
      rw [← DataLoader.sum_lengths_batches dl, Nat.cast_list_sum, List.map_map]
      rfl
    rw [← hsz]
    exact hle

/-- Witness for C9 at a concrete well-formed model and one-sample loader. -/
theorem test_metrics_bounds_witness :
    witModel.wellFormed
      ∧ (∀ p ∈ (test_dataloader [(sample0, 3)]).dataset, p.2 < 10)
      ∧ (0 ≤ (test (test_dataloader [(sample0, 3)]) ⟨witModel, none, true⟩).2.1
         ∧ 0 ≤ (test (test_dataloader [(sample0, 3)]) ⟨witModel, none, true⟩).2.2
         ∧ (test (test_dataloader [(sample0, 3)]) ⟨witModel, none, true⟩).2.2 ≤ 1) := by
  have h2 : ∀ p ∈ (test_dataloader [(sample0, 3)]).dataset, p.2 < 10 := by
    intro p hp
    have hp2 : p = (sample0, 3) := List.mem_singleton.mp hp
    rw [hp2]
    norm_num
  exact ⟨witModel_wellFormed, h2,
    test_metrics_bounds (test_dataloader [(sample0, 3)]) ⟨witModel, none, true⟩
      witModel_wellFormed h2⟩

/-- C10: the `test` function is deterministic — its reported average loss
and accuracy depend only on the parameter mapping and the batches, so two
states with equal state dicts (whatever their gradient buffers or mode
flags) produce identical results. -/
theorem test_deterministic_on_state_dict (dl : DataLoader) (st1 st2 : TrainState)
    (h : st1.net.state_dict = st2.net.state_dict) :
    (test dl st1).2 = (test dl st2).2 := by
  have hnet : st1.net = st2.net := state_dict_inj _ _ h
  rw [test_eq, test_eq, hnet]

/-- Witness for C10 at two concrete states sharing the same parameters. -/
theorem test_deterministic_witness :
    (test (test_dataloader [p0]) ⟨tinyModel, none, true⟩).2
      = (test (test_dataloader [p0]) ⟨tinyModel, some tinyModel, false⟩).2 :=
  test_deterministic_on_state_dict (test_dataloader [p0])
    ⟨tinyModel, none, true⟩ ⟨tinyModel, some tinyModel, false⟩ rfl

end Quickstart
